import Mathlib

/-!
Shallow embedding of `scripts/perf_test_hg.py`, the perf-test driver that
compares two buck revisions, together with proofs about its log parsing,
cache-invariant checks, iteration loop, argument parsing and directory
relocation/restore protocol.

Python dictionaries are embedded as functions `String → Option _` (updates
overwrite pointwise, lookups return `none` for missing keys), ordered bucket
maps as association lists, and the regex matches as structured line data: a
line of a log either carries the captured groups of the one pattern that can
match it, or it is unstructured text.
-/

namespace PerfTestHg

/-- One entry appended to a cache-result bucket by the `build.log` parsing
loop of `buck_build_target` (the dict literal at lines 241-245 of
`perf_test_hg.py`). -/
structure RuleRecord where
  rule_name : String
  rule_key : String
  rule_key_debug : String
deriving DecidableEq, Repr

/-- The capture groups of `BUILD_RESULT_LOG_LINE` (rule_name, cache_result,
rule_key; the `result` and `success_type` groups are matched but never read,
so they are omitted). A `build.log` line is embedded as
`Option BuildLogMatch`: `some` when the regex matches, `none` otherwise. -/
structure BuildLogMatch where
  rule_name : String
  cache_result : String
  rule_key : String
deriving DecidableEq, Repr

/-- The error message raised at lines 238-240 when a `build.log` entry
references a rule key absent from the `-v 5` output (braces of the Python
format string rendered as plain concatenation). -/
def buildLogErrMsg (rule_name rule_key : String) : String :=
  "ERROR: build.log contains an entry which was not found in buck build " ++
    "-v 5 output. Rule: " ++ rule_name ++ ", rule key: " ++ rule_key

/-- The `build.log` parsing loop of `buck_build_target` (lines 228-246),
threading the two accumulators `cache_results` (a `defaultdict(list)`,
embedded as the ordered list of (cache_result tag, record) insertions) and
`rule_key_map` (a dict, embedded as a function). A line whose rule key is
missing from `rule_debug_map` raises. -/
def parseBuildLogAux (rule_debug_map : String → Option String)
    (cache_results : List (String × RuleRecord))
    (rule_key_map : String → Option (String × String)) :
    List (Option BuildLogMatch) →
      Except String (List (String × RuleRecord) × (String → Option (String × String)))
  | [] => Except.ok (cache_results, rule_key_map)
  | none :: rest => parseBuildLogAux rule_debug_map cache_results rule_key_map rest
  | some m :: rest =>
    match rule_debug_map m.rule_key with
    | none => Except.error (buildLogErrMsg m.rule_name m.rule_key)
    | some dbg =>
      parseBuildLogAux rule_debug_map
        (cache_results ++ [(m.cache_result, ⟨m.rule_name, m.rule_key, dbg⟩)])
        (fun name => if name = m.rule_name then some (m.rule_key, dbg) else rule_key_map name)
        rest

/-- Parsing `build.log` starting from the empty `cache_results` and
`rule_key_map` of lines 228-229. -/
def parseBuildLog (rule_debug_map : String → Option String)
    (lines : List (Option BuildLogMatch)) :
    Except String (List (String × RuleRecord) × (String → Option (String × String))) :=
  parseBuildLogAux rule_debug_map [] (fun _ => none) lines

/-- The bucket stored under a tag of the `cache_results` defaultdict: the
records appended under that tag, in insertion order. -/
def bucketOf (cache_results : List (String × RuleRecord)) (tag : String) :
    List RuleRecord :=
  (cache_results.filter (fun p => p.1 == tag)).map Prod.snd

/-- The record the parsing loop builds from a matched line, given the
rule-key debug map (well-defined when the key is present). -/
def mkRecord (rule_debug_map : String → Option String) (m : BuildLogMatch) :
    RuleRecord :=
  ⟨m.rule_name, m.rule_key, (rule_debug_map m.rule_key).getD ""⟩

/-! ## Rule-key debug extraction (`buck_build_target`, lines 208-223) -/

/-- A line of the verbose build output. Exactly one of the two rule-key
patterns can match a given line: `BUCK_LOG_RULEKEY_LINE` matches only the
java-utils-log form, `RULEKEY_LINE` only the stdout `INFO: RuleKey` form. -/
inductive ToolLogLine where
  | buckLog (rule_key rule_key_debug : String)
  | infoRuleKey (rule_key rule_key_debug : String)
  | other (text : String)
deriving DecidableEq, Repr

/-- `BUCK_LOG_RULEKEY_LINE.match`: captures (rule_key, rule_key_debug) from a
java-utils-log line, fails on anything else. -/
def BUCK_LOG_RULEKEY_LINE : ToolLogLine → Option (String × String)
  | ToolLogLine.buckLog k d => some (k, d)
  | _ => none

/-- `RULEKEY_LINE.match`: captures (rule_key, rule_key_debug) from an
`INFO: RuleKey` stdout line, fails on anything else. -/
def RULEKEY_LINE : ToolLogLine → Option (String × String)
  | ToolLogLine.infoRuleKey k d => some (k, d)
  | _ => none

/-- The `rule_debug_map` extraction loop (lines 218-223): scan every line of
the chosen stream with the chosen pattern, later matches overwriting
earlier ones. -/
def extractRuleDebugMap (pattern : ToolLogLine → Option (String × String))
    (lines : List ToolLogLine) : String → Option String :=
  lines.foldl
    (fun m line =>
      match pattern line with
      | some (k, d) => fun key => if key = k then some d else m key
      | none => m)
    (fun _ => none)

/-- The pattern/stream selection of lines 211-216: when the java utils log
artifact `buck-out/log/buck-0.log` exists, scan it with
`BUCK_LOG_RULEKEY_LINE`; otherwise scan the captured stdout/stderr with
`RULEKEY_LINE`. -/
def selectRuleDebugMap (javaUtilsLogExists : Bool)
    (javaUtilsLog buildStdout : List ToolLogLine) : String → Option String :=
  if javaUtilsLogExists then extractRuleDebugMap BUCK_LOG_RULEKEY_LINE javaUtilsLog
  else extractRuleDebugMap RULEKEY_LINE buildStdout

/-! ## BuildResult and the invariant checks of `run_tests_for_diff` -/

/-- The `cache_results` field of a `BuildResult` as consumed by
`run_tests_for_diff`: the bucket map from cache-outcome tag to the records of
that bucket (a dict, so its keys are distinct; embedded as an association
list in key-insertion order). -/
abbrev CacheResults := List (String × List RuleRecord)

/-- `result.cache_results.keys()`. -/
def keysOf (cache_results : CacheResults) : List String :=
  cache_results.map Prod.fst

/-- Defaultdict access `cache_results[tag]`: the stored bucket, or the empty
list when the tag is absent. -/
def getBucket (cache_results : CacheResults) (tag : String) : List RuleRecord :=
  ((cache_results.find? (fun p => p.1 == tag)).map Prod.snd).getD []

/-- `cache_results.pop(tag, None)`: the bucket map without the given tag. -/
def popKey (cache_results : CacheResults) (tag : String) : CacheResults :=
  cache_results.filter (fun p => !(p.1 == tag))

/-- The `BuildResult` data `run_tests_for_diff` reads: the bucket map and the
rule-name → (rule key, rule key debug) dict (`time_delta` is never read by
the invariant checks and is omitted). -/
structure BuildResultModel where
  cache_results : CacheResults
  rule_key_map : String → Option (String × String)

/-- The no-op verification of lines 362-370: raise unless the bucket key set
has exactly one key and contains `LOCAL_KEY_UNCHANGED_HIT`; the exception
message reports the bucket map after popping an optional `DIR_HIT` bucket
(the pop happens only on the failure path). -/
def noopCheck (cache_results : CacheResults) : Except CacheResults Unit :=
  if (keysOf cache_results).length ≠ 1 ∨
      "LOCAL_KEY_UNCHANGED_HIT" ∉ keysOf cache_results then
    Except.error (popKey cache_results "DIR_HIT")
  else Except.ok ()

/-- The no-op acceptance condition as the specification states it: the set of
cache-outcome buckets, after discarding an optional `DIR_HIT` bucket, is
exactly the singleton `LOCAL_KEY_UNCHANGED_HIT`. -/
def specNoopPass (cache_results : CacheResults) : Prop :=
  ∀ k, k ∈ keysOf (popKey cache_results "DIR_HIT") ↔ k = "LOCAL_KEY_UNCHANGED_HIT"

/-- The per-`MISS`-rule diagnostic loop of lines 336-342: for each rule of
the `MISS` bucket, look its name up in the current and the baseline
`rule_key_map` (a missing name raises a `KeyError`, logging nothing further)
and log three lines. Returns the log lines produced together with the raised
`KeyError` when a lookup failed. -/
def logMissRules (rule_key_map last_rule_key_map : String → Option (String × String)) :
    List RuleRecord → List String × Option String
  | [] => ([], none)
  | rule :: rest =>
    match rule_key_map rule.rule_name with
    | none => ([], some ("KeyError: " ++ rule.rule_name))
    | some (key, key_debug) =>
      match last_rule_key_map rule.rule_name with
      | none => ([], some ("KeyError: " ++ rule.rule_name))
      | some (old_key, old_key_debug) =>
        let tail := logMissRules rule_key_map last_rule_key_map rest
        (("Rule " ++ rule.rule_name ++ " missed.") ::
          ("	Old Rule Key (" ++ old_key ++ "): " ++ old_key_debug ++ ".") ::
          ("	New Rule Key (" ++ key ++ "): " ++ key_debug ++ ".") :: tail.1,
          tail.2)

/-- The header logged at lines 331-335 before the per-rule diagnostics. -/
def crossDirHeader (prev_revision : String) : String :=
  "Building at revision " ++ prev_revision ++ " with the new buck version " ++
    "was unable to reuse the cache from a previous run.  This suggests one " ++
    "of the rule keys contains an absolute path."

/-- The cross-directory cache check of lines 325-343: compute the suspect
keys (every bucket key other than `DIR_HIT`/`IGNORED`); when some exist, log
the header and the per-`MISS`-rule diagnostics, then raise. Returns the log
lines together with the outcome. -/
def crossDirCheck (result last_result : BuildResultModel)
    (prev_revision : String) : List String × Except String Unit :=
  let suspect_keys := (keysOf result.cache_results).filter
    (fun x => !(x == "DIR_HIT" || x == "IGNORED"))
  if suspect_keys.isEmpty then ([], Except.ok ())
  else
    let diag := logMissRules result.rule_key_map last_result.rule_key_map
      (getBucket result.cache_results "MISS")
    match diag.2 with
    | some e => (crossDirHeader prev_revision :: diag.1, Except.error e)
    | none =>
      (crossDirHeader prev_revision :: diag.1,
        Except.error "Failed to reuse cache across directories!!!")

/-! ## The iteration loop of `run_tests_for_diff` (lines 347-353) -/

/-- Python `xrange(n)` over the ints 0, 1, ..., n-1 (empty when n ≤ 0). -/
def xrange (n : Int) : List Int :=
  (List.range n.toNat).map (fun k : Nat => (k : Int))

/-- The `cache_mode` assigned at lines 348-350 for a given attempt:
`readwrite` on the last attempt, `readonly` otherwise. -/
def iterationCacheMode (iterations_per_diff attempt : Int) : String :=
  if attempt = iterations_per_diff - 1 then "readwrite" else "readonly"

/-- One `build_all_targets` invocation, by the arguments the claims are
about: side, cache mode, and whether `buck clean` ran first (the `run_clean`
parameter, default `True`). -/
structure BuildCall where
  perftest_side : String
  cache_mode : String
  run_clean : Bool
deriving DecidableEq, Repr

/-- The builds performed by the iteration loop of lines 347-353, in order:
each attempt sets the cache mode, then builds the old side and the new side
(clean builds — `run_clean` defaults to `True`). -/
def iterationLoopBuilds (iterations_per_diff : Int) : List BuildCall :=
  (xrange iterations_per_diff).flatMap (fun attempt =>
    [⟨"old", iterationCacheMode iterations_per_diff attempt, true⟩,
     ⟨"new", iterationCacheMode iterations_per_diff attempt, true⟩])

/-- The value of the loop-local `cache_mode` variable after the loop:
`none` when the loop body never ran (the variable was never assigned, so
reading it afterwards raises a `NameError`), otherwise the mode of the last
attempt. -/
def iterationLoopFinalCacheMode (iterations_per_diff : Int) : Option String :=
  (xrange iterations_per_diff).foldl
    (fun _ attempt => some (iterationCacheMode iterations_per_diff attempt))
    none

/-! ## `run_tests_for_diff` as an event trace (lines 309-376)

The external effects the claims are about — the two `os.rename` calls, the
`build_all_targets` invocations and the `hg update` checkout — are recorded
as an event trace. The outcomes of the external build/checkout steps are
supplied by an oracle, one entry per call site. -/

/-- An observable step of `run_tests_for_diff`. -/
inductive Event where
  | rename (src dst : String)
  | buildAllTargets (perftest_side cache_mode : String) (run_clean : Bool)
  | checkout (revision : String)
deriving DecidableEq, Repr

/-- The outcomes of the external steps of one `run_tests_for_diff` call:
the post-relocation build (line 324), the checkout (line 345), the loop
builds (lines 352-353, indexed by attempt and side) and the no-op build
(lines 356-361). An `Except.error` is the exception the subprocess call
raises. -/
structure RunOracle where
  crossDirBuild : Except String BuildResultModel
  checkoutOk : Bool
  iterBuild : Int → String → Except String Unit
  noopBuild : String → Except String BuildResultModel

/-- The iteration loop of lines 347-353 over a list of attempts: each
attempt assigns `cache_mode`, then runs the old-side and the new-side clean
build, a raised build error aborting the loop. Returns the build events, the
final value of the `cache_mode` variable, and the outcome. -/
def runIterAttempts (oracle : RunOracle) (iterations_per_diff : Int) :
    List Int → List Event × Option String × Except String Unit
  | [] => ([], none, Except.ok ())
  | attempt :: rest =>
    let mode := iterationCacheMode iterations_per_diff attempt
    match oracle.iterBuild attempt "old" with
    | Except.error e =>
      ([Event.buildAllTargets "old" mode true], some mode, Except.error e)
    | Except.ok () =>
      match oracle.iterBuild attempt "new" with
      | Except.error e =>
        ([Event.buildAllTargets "old" mode true,
          Event.buildAllTargets "new" mode true], some mode, Except.error e)
      | Except.ok () =>
        let tail := runIterAttempts oracle iterations_per_diff rest
        (Event.buildAllTargets "old" mode true ::
          Event.buildAllTargets "new" mode true :: tail.1,
          some (tail.2.1.getD mode), tail.2.2)

/-- `list.getD`-style embedding of the Python indexing
`revisions_to_test[i]` (the claims only exercise in-range indices). -/
def revAt (revisions_to_test : List String) (i : Int) : String :=
  revisions_to_test.getD i.toNat ""

/-- The `try` block of `run_tests_for_diff` (lines 322-370): the
post-relocation build and cross-directory check, the checkout, the iteration
loop, and the no-op build and check. Returns the events of the block and its
outcome. Reading the loop-local `cache_mode` variable when the loop never
assigned it raises a `NameError` before the no-op build starts. -/
def runBody (oracle : RunOracle) (last_result : BuildResultModel)
    (iterations_per_diff : Int) (revisions_to_test : List String)
    (test_index : Int) : List Event × Except String BuildResultModel :=
  match oracle.crossDirBuild with
  | Except.error e => ([Event.buildAllTargets "new" "readonly" true], Except.error e)
  | Except.ok result =>
    match (crossDirCheck result last_result
        (revAt revisions_to_test (test_index - 1))).2 with
    | Except.error e =>
      ([Event.buildAllTargets "new" "readonly" true], Except.error e)
    | Except.ok () =>
      let evs1 := [Event.buildAllTargets "new" "readonly" true,
        Event.checkout (revAt revisions_to_test test_index)]
      if oracle.checkoutOk then
        let loop := runIterAttempts oracle iterations_per_diff
          (xrange iterations_per_diff)
        match loop.2.2 with
        | Except.error e => (evs1 ++ loop.1, Except.error e)
        | Except.ok () =>
          match loop.2.1 with
          | none =>
            (evs1 ++ loop.1, Except.error "NameError: cache_mode is not defined")
          | some cache_mode =>
            match oracle.noopBuild cache_mode with
            | Except.error e =>
              (evs1 ++ loop.1 ++ [Event.buildAllTargets "new" cache_mode false],
                Except.error e)
            | Except.ok result2 =>
              match noopCheck result2.cache_results with
              | Except.error _ =>
                (evs1 ++ loop.1 ++ [Event.buildAllTargets "new" cache_mode false],
                  Except.error "noop build did not hit all of its keys")
              | Except.ok () =>
                (evs1 ++ loop.1 ++ [Event.buildAllTargets "new" cache_mode false],
                  Except.ok result2)
      else (evs1, Except.error "checkout failed")

/-- `run_tests_for_diff` (lines 309-376): rename the repo directory to the
per-iteration name (line 320), run the `try` block, and — in the `finally`
of lines 372-374, hence on every exit path of the block — rename it back. -/
def run_tests_for_diff (oracle : RunOracle) (last_result : BuildResultModel)
    (iterations_per_diff : Int) (revisions_to_test : List String)
    (test_index : Int) (repo_under_test cwd_root : String) :
    List Event × Except String BuildResultModel :=
  let body := runBody oracle last_result iterations_per_diff revisions_to_test
    test_index
  ((Event.rename repo_under_test cwd_root :: body.1) ++
    [Event.rename cwd_root repo_under_test], body.2)

/-! ## `createArgParser` (lines 31-79) and `parse_args` -/

/-- One `add_argument` declaration: the flag name and whether argparse treats
it as required. -/
structure ArgSpec where
  flag : String
  required : Bool
deriving DecidableEq, Repr

/-- The nine `add_argument` calls of `createArgParser` (lines 31-79). None of
them passes `required=True`, and argparse treats a double-dash optional
argument without that keyword as not required (a missing one parses to
`None`), so every declaration carries `required := false`. -/
def createArgParser : List ArgSpec :=
  [⟨"--perftest_id", false⟩,
   ⟨"--revisions_to_go_back", false⟩,
   ⟨"--iterations_per_diff", false⟩,
   ⟨"--targets_to_build", false⟩,
   ⟨"--repo_under_test", false⟩,
   ⟨"--project_under_test", false⟩,
   ⟨"--path_to_buck", false⟩,
   ⟨"--old_buck_revision", false⟩,
   ⟨"--new_buck_revision", false⟩]

/-- `parser.parse_args(provided)`: argparse exits with a usage error exactly
when a required argument is absent from the command line; otherwise parsing
succeeds (absent optional arguments default to `None`). -/
def parse_args (specs : List ArgSpec) (provided : List String) :
    Except String (List String) :=
  let missing := specs.filter (fun s => s.required && !(provided.contains s.flag))
  if missing.isEmpty then Except.ok provided
  else Except.error "error: the following arguments are required"

/-- The specification reading of the command-line surface: every parameter
is required. -/
def specAllArgsRequired : Prop :=
  ∀ s ∈ createArgParser, s.required = true

/-! ## The test loop of `main` (lines 413-425) -/

/-- The `--limit` passed to `hg log` by `get_revisions` (line 122):
`revisions_to_go_back + 1`, so the oldest-first revision list has at most
`revisions_to_go_back + 1` entries. -/
def getRevisionsLimit (revisions_to_go_back : Int) : Int :=
  revisions_to_go_back + 1

/-- Python `xrange(a, b)` over the ints a, ..., b-1 (empty when b ≤ a). -/
def xrange2 (a b : Int) : List Int :=
  (List.range (b - a).toNat).map (fun k : Nat => a + (k : Int))

/-- The test loop of `main` (lines 420-425):
`for i in xrange(1, args.revisions_to_go_back)` calls `run_tests_for_diff`
at index `i`, threading the previous call result (initially the last warm-up
result) in as the comparison baseline. `run` abstracts one
`run_tests_for_diff` call; the loop records, per call, the test index, the
revision at that index, and the baseline passed in. -/
def mainTestLoop {α : Type} (run : Int → α → α) (revisions_to_go_back : Int)
    (revisions_to_test : List String) (results_for_new : α) :
    List (Int × String × α) × α :=
  (xrange2 1 revisions_to_go_back).foldl
    (fun acc i =>
      (acc.1 ++ [(i, revAt revisions_to_test i, acc.2)], run i acc.2))
    ([], results_for_new)

/-- The same loop written by structural recursion over the index list, the
baseline threading explicit: each call receives the previous call result. -/
def mainTestLoopSpec {α : Type} (run : Int → α → α)
    (revisions_to_test : List String) (results_for_new : α) :
    List Int → List (Int × String × α) × α
  | [] => ([], results_for_new)
  | i :: rest =>
    let tail := mainTestLoopSpec run revisions_to_test (run i results_for_new) rest
    ((i, revAt revisions_to_test i, results_for_new) :: tail.1, tail.2)

/-! ## Statement-side characterizations and concrete data -/

/-- Last-write-wins characterization of the `rule_key_map` dict built by the
`build.log` loop: the value at `name` comes from the last matched line with
that rule name, falling back to the initial map. -/
def lastWriteLookup (rule_debug_map : String → Option String)
    (matched : List BuildLogMatch) (rkm : String → Option (String × String))
    (name : String) : Option (String × String) :=
  match matched.reverse.find? (fun m => m.rule_name == name) with
  | some m => some (m.rule_key, (rule_debug_map m.rule_key).getD "")
  | none => rkm name

/-- A concrete rule record used by the concrete-input theorems. -/
def rrJl : RuleRecord := ⟨"//java:lib", "aa11", "debug1"⟩

/-- A bucket map with a `DIR_HIT` bucket next to the
`LOCAL_KEY_UNCHANGED_HIT` bucket. -/
def noopDirHitInput : CacheResults :=
  [("LOCAL_KEY_UNCHANGED_HIT", [rrJl]), ("DIR_HIT", [rrJl])]

/-- A post-relocation build result with one missed rule, for the concrete
cross-directory check. -/
def c2Result : BuildResultModel :=
  { cache_results := [("MISS", [rrJl])],
    rule_key_map := fun name =>
      if name = "//java:lib" then some ("aa11", "debug1") else none }

/-- The baseline build result for the concrete cross-directory check. -/
def c2Last : BuildResultModel :=
  { cache_results := [("LOCAL_KEY_UNCHANGED_HIT", [rrJl])],
    rule_key_map := fun name =>
      if name = "//java:lib" then some ("bb22", "debug0") else none }

/-- An oracle whose post-relocation build succeeds with only a `DIR_HIT`
bucket and whose checkout succeeds; the loop and no-op builds are never
consulted when the iteration count is not positive. -/
def c10Oracle : RunOracle :=
  { crossDirBuild := Except.ok ⟨[("DIR_HIT", [rrJl])], fun _ => none⟩,
    checkoutOk := true,
    iterBuild := fun _ _ => Except.error "unused",
    noopBuild := fun _ => Except.error "unused" }

/-- A concrete matched `build.log` line whose rule key no debug map
contains. -/
def mC3 : BuildLogMatch := ⟨"//java:lib", "MISS", "feedface"⟩

/-- A concrete debug map for the complete-parse theorem. -/
def c4DebugMap : String → Option String :=
  fun key => if key = "aa11" then some "da" else if key = "bb22" then some "db" else none

/-- A concrete `build.log` line list: two matched lines with the same rule
name (exercising last-write-wins) around an unmatched line. -/
def c4Lines : List (Option BuildLogMatch) :=
  [some ⟨"//java:lib", "MISS", "aa11"⟩, none, some ⟨"//java:lib", "DIR_HIT", "bb22"⟩]

/-! ## Theorems -/

/-- C1 (counterexample): a bucket map holding `LOCAL_KEY_UNCHANGED_HIT` and
an additional `DIR_HIT` bucket satisfies the claimed acceptance condition
(buckets minus `DIR_HIT` are exactly the singleton), yet the no-op check of
lines 362-370 raises on it — the code tests the bucket count before popping
`DIR_HIT`, so `DIR_HIT` is not tolerated. -/
theorem noopCheck_dirhit_refutes_claim :
    specNoopPass noopDirHitInput ∧
      noopCheck noopDirHitInput = Except.error [("LOCAL_KEY_UNCHANGED_HIT", [rrJl])] := by
  constructor
  · intro k
    have h : keysOf (popKey noopDirHitInput "DIR_HIT") = ["LOCAL_KEY_UNCHANGED_HIT"] := rfl
    rw [h, List.mem_singleton]
  · rfl

/-- C1 (amended): the no-op verification passes exactly when the bucket key
list is the singleton `LOCAL_KEY_UNCHANGED_HIT` — a `DIR_HIT` bucket is not
tolerated; it is discarded only from the bucket map reported by the raised
exception. -/
theorem noopCheck_singleton_iff (cache_results : CacheResults) :
    noopCheck cache_results =
      if keysOf cache_results = ["LOCAL_KEY_UNCHANGED_HIT"] then Except.ok ()
      else Except.error (popKey cache_results "DIR_HIT") := by
  by_cases h : keysOf cache_results = ["LOCAL_KEY_UNCHANGED_HIT"]
  · have h1 : ¬((keysOf cache_results).length ≠ 1 ∨
        "LOCAL_KEY_UNCHANGED_HIT" ∉ keysOf cache_results) := by
      rw [h]; simp
    simp [noopCheck, h1, h]
  · have h1 : (keysOf cache_results).length ≠ 1 ∨
        "LOCAL_KEY_UNCHANGED_HIT" ∉ keysOf cache_results := by
      by_contra hcon
      push_neg at hcon
      obtain ⟨hlen, hmem⟩ := hcon
      obtain ⟨a, ha⟩ := List.length_eq_one.mp hlen
      rw [ha] at hmem
      simp only [List.mem_singleton] at hmem
      exact h (by rw [ha, hmem])
    simp [noopCheck, h1, h]

/-- C5: exactly one of the two rule-key patterns is active per build, chosen
by the existence of the java utils log artifact: when it exists the debug map
comes from it alone via `BUCK_LOG_RULEKEY_LINE` (the captured stdout — even
stdout holding lines the fallback pattern matches — is ignored), and when it
does not, the map comes from the captured stdout alone via `RULEKEY_LINE`. -/
theorem selectRuleDebugMap_exclusive :
    (∀ javaUtilsLog buildStdout buildStdout2,
      selectRuleDebugMap true javaUtilsLog buildStdout =
        selectRuleDebugMap true javaUtilsLog buildStdout2) ∧
    (∀ javaUtilsLog buildStdout,
      selectRuleDebugMap true javaUtilsLog buildStdout =
        extractRuleDebugMap BUCK_LOG_RULEKEY_LINE javaUtilsLog) ∧
    (∀ javaUtilsLog buildStdout k d,
      selectRuleDebugMap true javaUtilsLog
          (buildStdout ++ [ToolLogLine.infoRuleKey k d]) =
        selectRuleDebugMap true javaUtilsLog buildStdout) ∧
    (∀ javaUtilsLog javaUtilsLog2 buildStdout,
      selectRuleDebugMap false javaUtilsLog buildStdout =
        selectRuleDebugMap false javaUtilsLog2 buildStdout) ∧
    (∀ javaUtilsLog buildStdout,
      selectRuleDebugMap false javaUtilsLog buildStdout =
        extractRuleDebugMap RULEKEY_LINE buildStdout) :=
  ⟨fun _ _ _ => rfl, fun _ _ => rfl, fun _ _ _ _ => rfl,
    fun _ _ _ => rfl, fun _ _ => rfl⟩

/-- C7: on every exit path of `run_tests_for_diff` — whatever the oracle
says about the cross-directory build, the checkout, the loop builds and the
no-op build — the event trace opens with the relocation rename and closes
with the rename back to the original path. -/
theorem run_tests_for_diff_restores (oracle : RunOracle)
    (last_result : BuildResultModel) (iterations_per_diff : Int)
    (revisions_to_test : List String) (test_index : Int)
    (repo_under_test cwd_root : String) :
    (run_tests_for_diff oracle last_result iterations_per_diff
        revisions_to_test test_index repo_under_test cwd_root).1.head? =
      some (Event.rename repo_under_test cwd_root) ∧
    (run_tests_for_diff oracle last_result iterations_per_diff
        revisions_to_test test_index repo_under_test cwd_root).1.getLast? =
      some (Event.rename cwd_root repo_under_test) := by
  constructor
  · rfl
  · exact List.getLast?_concat _

/-- C8 (counterexample): parsing an empty command line succeeds — no
parameter of `createArgParser` is declared required, refuting the claim that
every parameter is required and a missing one fails fast. -/
theorem parse_args_empty_refutes_claim :
    parse_args createArgParser [] = Except.ok [] ∧ ¬ specAllArgsRequired := by
  refine ⟨rfl, fun h => ?_⟩
  have := h ⟨"--perftest_id", false⟩ (by simp [createArgParser])
  simp at this

/-- C8 (amended): every parameter of `createArgParser` is optional (argparse
default for double-dash arguments without `required=True`), so `parse_args`
succeeds on any command line, however many parameters are missing — no
fail-fast check exists at parse time. -/
theorem parse_args_never_fails (provided : List String) :
    parse_args createArgParser provided = Except.ok provided ∧
      createArgParser.all (fun s => !s.required) = true := by
  refine ⟨?_, rfl⟩
  simp [parse_args, createArgParser]

/-- Helper: the fold of `mainTestLoop` agrees with the structural recursion
of `mainTestLoopSpec`, for any starting accumulator. -/
theorem mainTestLoop_foldl_eq_spec {α : Type} (run : Int → α → α)
    (revisions_to_test : List String) :
    ∀ (idxs : List Int) (acc : List (Int × String × α)) (r : α),
      idxs.foldl
        (fun acc i => (acc.1 ++ [(i, revAt revisions_to_test i, acc.2)], run i acc.2))
        (acc, r) =
      (acc ++ (mainTestLoopSpec run revisions_to_test r idxs).1,
        (mainTestLoopSpec run revisions_to_test r idxs).2) := by
  intro idxs
  induction idxs with
  | nil => intro acc r; simp [mainTestLoopSpec]
  | cons i rest ih =>
    intro acc r
    simp only [List.foldl_cons, mainTestLoopSpec]
    rw [ih]
    simp

/-- C9 (counterexample): with `revisions_to_go_back = 2` — the canonical
parameter for a three-revision list, since `get_revisions` asks `hg log` for
a limit of 3 — the test loop `for i in xrange(1, revisions_to_go_back)` over
the list r0, r1, r2 calls `run_tests_for_diff` exactly once, at index 1 for
r1, not twice as claimed: r2 is never tested. -/
theorem mainTestLoop_three_revisions_refutes_claim :
    getRevisionsLimit 2 = 3 ∧
      (mainTestLoop (fun _ r => r + 1) 2 ["r0", "r1", "r2"] 0).1 =
        [(1, "r1", 0)] ∧
      (mainTestLoop (fun _ r => r + 1) 2 ["r0", "r1", "r2"] 0).1.length ≠ 2 := by
  refine ⟨rfl, rfl, ?_⟩
  intro h
  rw [show (mainTestLoop (fun _ r => r + 1) 2 ["r0", "r1", "r2"] 0).1 =
    [(1, "r1", 0)] from rfl] at h
  simp at h

/-- C9 (amended): the test loop runs `run_tests_for_diff` once per index of
`xrange(1, revisions_to_go_back)` — its call count is set by
`revisions_to_go_back`, not by the revision-list length — threading each
call result in as the next call baseline. For the list r0, r1, r2 it runs
exactly once (for r1, with the warm-up result as baseline) when
`revisions_to_go_back = 2`, and exactly twice — r1 then r2, r1's result
becoming r2's baseline — when `revisions_to_go_back = 3`. -/
theorem mainTestLoop_threading :
    (∀ {α : Type} (run : Int → α → α) (revisions_to_go_back : Int)
        (revisions_to_test : List String) (results_for_new : α),
      mainTestLoop run revisions_to_go_back revisions_to_test results_for_new =
        mainTestLoopSpec run revisions_to_test results_for_new
          (xrange2 1 revisions_to_go_back)) ∧
    (∀ {α : Type} (run : Int → α → α) (results_for_new : α),
      mainTestLoop run 2 ["r0", "r1", "r2"] results_for_new =
        ([(1, "r1", results_for_new)], run 1 results_for_new)) ∧
    (∀ {α : Type} (run : Int → α → α) (results_for_new : α),
      mainTestLoop run 3 ["r0", "r1", "r2"] results_for_new =
        ([(1, "r1", results_for_new), (2, "r2", run 1 results_for_new)],
          run 2 (run 1 results_for_new))) := by
  refine ⟨?_, ?_, ?_⟩
  · intro α run n revs r
    unfold mainTestLoop
    rw [mainTestLoop_foldl_eq_spec]
    simp
  · intro α run r
    rfl
  · intro α run r
    rfl

/-- Helper: `flatMap` only depends on the values of the function on the
members of the list. -/
theorem listFlatMapCongr {α β : Type} (l : List α) (f g : α → List β)
    (h : ∀ a ∈ l, f a = g a) : l.flatMap f = l.flatMap g := by
  induction l with
  | nil => rfl
  | cons a t ih =>
    simp only [List.flatMap_cons]
    rw [h a (List.mem_cons_self a t), ih fun b hb => h b (List.mem_cons_of_mem a hb)]

/-- C6: for any positive iteration count the loop of lines 347-353 performs,
per attempt, a clean old-side build then a clean new-side build, in cache
mode `readonly` on every attempt except the final one, which uses
`readwrite` — so exactly one attempt of the loop assigns the `readwrite`
mode. -/
theorem iterationLoop_modes (iterations_per_diff : Int)
    (h : 1 ≤ iterations_per_diff) :
    iterationLoopBuilds iterations_per_diff =
      (xrange (iterations_per_diff - 1)).flatMap
        (fun _ => [⟨"old", "readonly", true⟩, ⟨"new", "readonly", true⟩]) ++
      [⟨"old", "readwrite", true⟩, ⟨"new", "readwrite", true⟩] ∧
    (xrange (iterations_per_diff - 1)).length = iterations_per_diff.toNat - 1 ∧
    ((xrange iterations_per_diff).filter
      (fun attempt =>
        iterationCacheMode iterations_per_diff attempt == "readwrite")).length = 1 := by
  have hk : iterations_per_diff.toNat = (iterations_per_diff.toNat - 1) + 1 := by
    omega
  have hsplit : xrange iterations_per_diff =
      (List.range (iterations_per_diff.toNat - 1)).map (fun k : Nat => (k : Int)) ++
        [((iterations_per_diff.toNat - 1 : Nat) : Int)] := by
    rw [xrange, hk, List.range_succ, List.map_append]
    rfl
  have hpre : xrange (iterations_per_diff - 1) =
      (List.range (iterations_per_diff.toNat - 1)).map (fun k : Nat => (k : Int)) := by
    have htn : (iterations_per_diff - 1).toNat = iterations_per_diff.toNat - 1 := by
      omega
    rw [xrange, htn]
  have hmode_ro : ∀ j : Nat, j < iterations_per_diff.toNat - 1 →
      iterationCacheMode iterations_per_diff ((j : Nat) : Int) = "readonly" := by
    intro j hj
    have hne : ¬(((j : Nat) : Int) = iterations_per_diff - 1) := by omega
    simp only [iterationCacheMode, if_neg hne]
  have hmode_rw :
      iterationCacheMode iterations_per_diff
        ((iterations_per_diff.toNat - 1 : Nat) : Int) = "readwrite" := by
    have heq : ((iterations_per_diff.toNat - 1 : Nat) : Int) =
        iterations_per_diff - 1 := by omega
    simp only [iterationCacheMode, if_pos heq]
  refine ⟨?_, ?_, ?_⟩
  · rw [iterationLoopBuilds, hsplit, List.flatMap_append, hpre]
    congr 1
    · refine listFlatMapCongr _ _ _ ?_
      intro a ha
      obtain ⟨j, hj, rfl⟩ := List.mem_map.mp ha
      rw [hmode_ro j (List.mem_range.mp hj)]
    · simp only [List.flatMap_cons, List.flatMap_nil, List.append_nil, hmode_rw]
  · rw [hpre]
    simp
  · rw [hsplit, List.filter_append]
    have hnil : (((List.range (iterations_per_diff.toNat - 1)).map
        (fun k : Nat => (k : Int))).filter
        (fun attempt =>
          iterationCacheMode iterations_per_diff attempt == "readwrite")) = [] := by
      rw [List.filter_eq_nil_iff]
      intro a ha
      obtain ⟨j, hj, rfl⟩ := List.mem_map.mp ha
      simp [hmode_ro j (List.mem_range.mp hj)]
    rw [hnil]
    simp [hmode_rw]

/-- Witness for C6 at two iterations. -/
theorem iterationLoop_modes_witness :
    iterationLoopBuilds 2 =
      (xrange (2 - 1)).flatMap
        (fun _ => [⟨"old", "readonly", true⟩, ⟨"new", "readonly", true⟩]) ++
      [⟨"old", "readwrite", true⟩, ⟨"new", "readwrite", true⟩] ∧
    (xrange (2 - 1)).length = (2 : Int).toNat - 1 ∧
    ((xrange 2).filter
      (fun attempt => iterationCacheMode 2 attempt == "readwrite")).length = 1 :=
  iterationLoop_modes 2 (by norm_num)

/-- C10: when `iterations_per_diff ≤ 0` and the earlier steps succeed, the
iteration loop body never runs, so the loop-local `cache_mode` variable is
never assigned and reading it for the no-op build raises a `NameError`: the
trace holds no loop build and no no-op (non-clean) build, and the no-op
verification is never reached. -/
theorem run_tests_noop_unreachable (oracle : RunOracle)
    (last_result : BuildResultModel) (iterations_per_diff : Int)
    (revisions_to_test : List String) (test_index : Int)
    (repo_under_test cwd_root : String)
    (hiter : iterations_per_diff ≤ 0)
    (hbuild : ∃ r, oracle.crossDirBuild = Except.ok r ∧
      (crossDirCheck r last_result (revAt revisions_to_test (test_index - 1))).2 =
        Except.ok ())
    (hco : oracle.checkoutOk = true) :
    run_tests_for_diff oracle last_result iterations_per_diff revisions_to_test
        test_index repo_under_test cwd_root =
      ([Event.rename repo_under_test cwd_root,
        Event.buildAllTargets "new" "readonly" true,
        Event.checkout (revAt revisions_to_test test_index),
        Event.rename cwd_root repo_under_test],
       Except.error "NameError: cache_mode is not defined") := by
  obtain ⟨r, hb, hchk⟩ := hbuild
  have hx : xrange iterations_per_diff = [] := by
    simp [xrange, Int.toNat_of_nonpos hiter]
  simp only [run_tests_for_diff, runBody, hb, hchk, hco, hx, runIterAttempts,
    if_true, List.append_nil]
  rfl

/-- Witness for C10: with zero iterations and an oracle whose relocation
build reuses the directory cache, the run ends in the `NameError` and the
no-op build never happens. -/
theorem run_tests_noop_unreachable_witness :
    run_tests_for_diff c10Oracle ⟨[], fun _ => none⟩ 0 ["r0", "r1"] 1
        "repo" "repo_test_iteration_1" =
      ([Event.rename "repo" "repo_test_iteration_1",
        Event.buildAllTargets "new" "readonly" true,
        Event.checkout "r1",
        Event.rename "repo_test_iteration_1" "repo"],
       Except.error "NameError: cache_mode is not defined") := by
  have h := run_tests_noop_unreachable c10Oracle ⟨[], fun _ => none⟩ 0 ["r0", "r1"] 1
    "repo" "repo_test_iteration_1" (by norm_num)
    ⟨⟨[("DIR_HIT", [rrJl])], fun _ => none⟩, rfl, rfl⟩ rfl
  exact h

/-- Helper for C3: whatever the accumulators hold, a matched line whose rule
key is absent from the debug map forces the parse to the consistency
error naming (the first) such line's rule and key. -/
theorem parseBuildLogAux_missing (rule_debug_map : String → Option String) :
    ∀ (lines : List (Option BuildLogMatch)) (cr : List (String × RuleRecord))
      (rkm : String → Option (String × String)),
      (∃ m : BuildLogMatch, some m ∈ lines ∧ rule_debug_map m.rule_key = none) →
      ∃ m : BuildLogMatch, (some m ∈ lines ∧ rule_debug_map m.rule_key = none) ∧
        parseBuildLogAux rule_debug_map cr rkm lines =
          Except.error (buildLogErrMsg m.rule_name m.rule_key) := by
  intro lines
  induction lines with
  | nil =>
    intro cr rkm h
    obtain ⟨m, hm, -⟩ := h
    exact absurd hm (List.not_mem_nil _)
  | cons line rest ih =>
    intro cr rkm h
    match line with
    | none =>
      have hrest : ∃ m : BuildLogMatch, some m ∈ rest ∧
          rule_debug_map m.rule_key = none := by
        obtain ⟨m, hm, hkey⟩ := h
        refine ⟨m, ?_, hkey⟩
        rcases List.mem_cons.mp hm with heq | hmem
        · exact absurd heq (by simp)
        · exact hmem
      obtain ⟨m, ⟨hmem, hkey⟩, heq⟩ := ih cr rkm hrest
      exact ⟨m, ⟨List.mem_cons_of_mem _ hmem, hkey⟩, heq⟩
    | some m0 =>
      cases hkey0 : rule_debug_map m0.rule_key with
      | none =>
        refine ⟨m0, ⟨List.mem_cons_self _ _, hkey0⟩, ?_⟩
        simp only [parseBuildLogAux, hkey0]
      | some dbg =>
        have hrest : ∃ m : BuildLogMatch, some m ∈ rest ∧
            rule_debug_map m.rule_key = none := by
          obtain ⟨m, hm, hkey⟩ := h
          refine ⟨m, ?_, hkey⟩
          rcases List.mem_cons.mp hm with heq | hmem
          · obtain rfl : m = m0 := by simpa using heq
            rw [hkey] at hkey0
            exact absurd hkey0 (by simp)
          · exact hmem
        obtain ⟨m, ⟨hmem, hkey⟩, heq⟩ := ih _ _ hrest
        refine ⟨m, ⟨List.mem_cons_of_mem _ hmem, hkey⟩, ?_⟩
        simp only [parseBuildLogAux, hkey0]
        exact heq

/-- C3: a structured completion line whose fingerprint is absent from the
fingerprint-description mapping makes `build.log` parsing raise the fatal
consistency error naming the offending rule and fingerprint — the record is
never dropped and no (partial) result is produced. -/
theorem parseBuildLog_missing_key_fatal (rule_debug_map : String → Option String)
    (lines : List (Option BuildLogMatch))
    (h : ∃ m : BuildLogMatch, some m ∈ lines ∧ rule_debug_map m.rule_key = none) :
    ∃ m : BuildLogMatch, (some m ∈ lines ∧ rule_debug_map m.rule_key = none) ∧
      parseBuildLog rule_debug_map lines =
        Except.error (buildLogErrMsg m.rule_name m.rule_key) :=
  parseBuildLogAux_missing rule_debug_map lines [] (fun _ => none) h

/-- Witness for C3 at a single offending line. -/
theorem parseBuildLog_missing_key_witness :
    ∃ m : BuildLogMatch,
      (some m ∈ [some mC3] ∧ (fun _ => (none : Option String)) m.rule_key = none) ∧
      parseBuildLog (fun _ => none) [some mC3] =
        Except.error (buildLogErrMsg m.rule_name m.rule_key) :=
  parseBuildLog_missing_key_fatal (fun _ => none) [some mC3] ⟨mC3, by simp, rfl⟩

/-- Helper for C4: when every matched line's rule key resolves in the debug
map, the parse succeeds, appends one bucket entry per matched line in line
order, and updates the rule-name dict with last-write-wins semantics. -/
theorem parseBuildLogAux_complete (rule_debug_map : String → Option String) :
    ∀ (lines : List (Option BuildLogMatch)) (cr : List (String × RuleRecord))
      (rkm : String → Option (String × String)),
      (∀ m ∈ lines.filterMap id, (rule_debug_map m.rule_key).isSome) →
      parseBuildLogAux rule_debug_map cr rkm lines =
        Except.ok
          (cr ++ (lines.filterMap id).map
            (fun m => (m.cache_result, mkRecord rule_debug_map m)),
           lastWriteLookup rule_debug_map (lines.filterMap id) rkm) := by
  intro lines
  induction lines with
  | nil =>
    intro cr rkm h
    have hlw : lastWriteLookup rule_debug_map ([] : List BuildLogMatch) rkm = rkm := by
      funext name
      simp [lastWriteLookup]
    simp [parseBuildLogAux, hlw]
  | cons line rest ih =>
    intro cr rkm h
    match line with
    | none =>
      have hstep : parseBuildLogAux rule_debug_map cr rkm (none :: rest) =
          parseBuildLogAux rule_debug_map cr rkm rest := rfl
      have hfm : (none :: rest).filterMap
          (id : Option BuildLogMatch → Option BuildLogMatch) = rest.filterMap id := by
        simp
      rw [hstep, hfm]
      exact ih cr rkm fun m hm => h m (by simpa using hm)
    | some m0 =>
      have hkey : (rule_debug_map m0.rule_key).isSome := h m0 (by simp)
      obtain ⟨dbg, hdbg⟩ := Option.isSome_iff_exists.mp hkey
      have hfm : (some m0 :: rest).filterMap
          (id : Option BuildLogMatch → Option BuildLogMatch) =
            m0 :: rest.filterMap id := by
        simp
      have hstep : parseBuildLogAux rule_debug_map cr rkm (some m0 :: rest) =
          parseBuildLogAux rule_debug_map
            (cr ++ [(m0.cache_result, ⟨m0.rule_name, m0.rule_key, dbg⟩)])
            (fun name => if name = m0.rule_name then some (m0.rule_key, dbg)
              else rkm name)
            rest := by
        simp only [parseBuildLogAux, hdbg]
      rw [hstep, hfm, ih _ _ fun m hm => h m (by simp [hm])]
      simp only [Except.ok.injEq, Prod.mk.injEq]
      constructor
      · have hrec : mkRecord rule_debug_map m0 =
            ⟨m0.rule_name, m0.rule_key, dbg⟩ := by
          simp [mkRecord, hdbg]
        rw [List.map_cons, hrec, List.append_assoc, List.singleton_append]
      · funext name
        simp only [lastWriteLookup, List.reverse_cons, List.find?_append]
        cases hfind : (rest.filterMap id).reverse.find?
            (fun m => m.rule_name == name) with
        | some r => simp
        | none =>
          simp only [Option.none_or]
          by_cases hname : m0.rule_name = name
          · subst hname
            simp [List.find?_cons, hdbg]
          · have hp : (m0.rule_name == name) = false := by
              simp [hname]
            have hns : ¬(name = m0.rule_name) := fun hc => hname (Eq.symm hc)
            simp [List.find?_cons, hp, hns]

/-- C4: for a log with N matched completion lines, every fingerprint
resolvable, parsing yields exactly N bucket records placed under their
cache-outcome tags in line order, and a rule-name mapping whose value at
each name comes from that name's last matched line (last-write-wins; a name
with no matched line is absent). -/
theorem parseBuildLog_complete (rule_debug_map : String → Option String)
    (lines : List (Option BuildLogMatch))
    (h : ∀ m ∈ lines.filterMap id, (rule_debug_map m.rule_key).isSome) :
    ∃ cache_results rule_key_map,
      parseBuildLog rule_debug_map lines = Except.ok (cache_results, rule_key_map) ∧
      cache_results.length = (lines.filterMap id).length ∧
      (∀ tag, bucketOf cache_results tag =
        ((lines.filterMap id).filter (fun m => m.cache_result == tag)).map
          (mkRecord rule_debug_map)) ∧
      (∀ name, rule_key_map name =
        ((lines.filterMap id).reverse.find? (fun m => m.rule_name == name)).map
          (fun m => (m.rule_key, (rule_debug_map m.rule_key).getD ""))) := by
  have heq : parseBuildLog rule_debug_map lines =
      Except.ok
        ([] ++ (lines.filterMap id).map
          (fun m => (m.cache_result, mkRecord rule_debug_map m)),
         lastWriteLookup rule_debug_map (lines.filterMap id) (fun _ => none)) :=
    parseBuildLogAux_complete rule_debug_map lines [] (fun _ => none) h
  refine ⟨_, _, heq, ?_, ?_, ?_⟩
  · simp
  · intro tag
    simp only [List.nil_append, bucketOf, List.filter_map, List.map_map]
    rfl
  · intro name
    simp only [lastWriteLookup]
    cases hfind : (lines.filterMap id).reverse.find?
        (fun m => m.rule_name == name) with
    | some r => simp
    | none => simp

/-- Witness for C4 on a concrete log: two matched lines sharing a rule name
around an unmatched line. -/
theorem parseBuildLog_complete_witness :
    ∃ cache_results rule_key_map,
      parseBuildLog c4DebugMap c4Lines = Except.ok (cache_results, rule_key_map) ∧
      cache_results.length = (c4Lines.filterMap id).length ∧
      (∀ tag, bucketOf cache_results tag =
        ((c4Lines.filterMap id).filter (fun m => m.cache_result == tag)).map
          (mkRecord c4DebugMap)) ∧
      (∀ name, rule_key_map name =
        ((c4Lines.filterMap id).reverse.find? (fun m => m.rule_name == name)).map
          (fun m => (m.rule_key, (c4DebugMap m.rule_key).getD ""))) :=
  parseBuildLog_complete c4DebugMap c4Lines (by decide)

/-- Helper for C2: when every missed rule's name resolves in both rule-key
maps, the diagnostic loop raises no `KeyError` and its log holds, for every
missed rule, the rule line and the old and new fingerprint lines. -/
theorem logMissRules_logs_all
    (rule_key_map last_rule_key_map : String → Option (String × String)) :
    ∀ rules : List RuleRecord,
      (∀ r ∈ rules, (rule_key_map r.rule_name).isSome ∧
        (last_rule_key_map r.rule_name).isSome) →
      (logMissRules rule_key_map last_rule_key_map rules).2 = none ∧
      ∀ r ∈ rules, ∀ key key_debug old_key old_key_debug,
        rule_key_map r.rule_name = some (key, key_debug) →
        last_rule_key_map r.rule_name = some (old_key, old_key_debug) →
        ("Rule " ++ r.rule_name ++ " missed.") ∈
          (logMissRules rule_key_map last_rule_key_map rules).1 ∧
        ("	Old Rule Key (" ++ old_key ++ "): " ++ old_key_debug ++ ".") ∈
          (logMissRules rule_key_map last_rule_key_map rules).1 ∧
        ("	New Rule Key (" ++ key ++ "): " ++ key_debug ++ ".") ∈
          (logMissRules rule_key_map last_rule_key_map rules).1 := by
  intro rules
  induction rules with
  | nil =>
    intro h
    exact ⟨rfl, fun r hr => absurd hr (List.not_mem_nil _)⟩
  | cons r0 rest ih =>
    intro h
    obtain ⟨hk0, hl0⟩ := h r0 (List.mem_cons_self _ _)
    obtain ⟨⟨k0, d0⟩, hk0eq⟩ := Option.isSome_iff_exists.mp hk0
    obtain ⟨⟨ok0, od0⟩, hl0eq⟩ := Option.isSome_iff_exists.mp hl0
    obtain ⟨ihtail, ihmem⟩ := ih fun r hr => h r (List.mem_cons_of_mem _ hr)
    have hstep : logMissRules rule_key_map last_rule_key_map (r0 :: rest) =
        (("Rule " ++ r0.rule_name ++ " missed.") ::
          ("	Old Rule Key (" ++ ok0 ++ "): " ++ od0 ++ ".") ::
          ("	New Rule Key (" ++ k0 ++ "): " ++ d0 ++ ".") ::
            (logMissRules rule_key_map last_rule_key_map rest).1,
          (logMissRules rule_key_map last_rule_key_map rest).2) := by
      simp only [logMissRules, hk0eq, hl0eq]
    rw [hstep]
    refine ⟨ihtail, ?_⟩
    intro r hr key key_debug old_key old_key_debug hkey hold
    rcases List.mem_cons.mp hr with rfl | hmem
    · rw [hkey] at hk0eq
      rw [hold] at hl0eq
      obtain ⟨rfl, rfl⟩ : key = k0 ∧ key_debug = d0 := by
        simpa using hk0eq
      obtain ⟨rfl, rfl⟩ : old_key = ok0 ∧ old_key_debug = od0 := by
        simpa using hl0eq
      refine ⟨List.mem_cons_self _ _, ?_, ?_⟩
      · exact List.mem_cons_of_mem _ (List.mem_cons_self _ _)
      · exact List.mem_cons_of_mem _ (List.mem_cons_of_mem _ (List.mem_cons_self _ _))
    · obtain ⟨h1, h2, h3⟩ := ihmem r hmem key key_debug old_key old_key_debug hkey hold
      refine ⟨?_, ?_, ?_⟩ <;>
        exact List.mem_cons_of_mem _ (List.mem_cons_of_mem _ (List.mem_cons_of_mem _
          (by assumption)))

/-- C2: the cross-directory cache check passes, logging nothing, when every
bucket key is `DIR_HIT` or `IGNORED`; any other key makes it raise the
cross-directory failure, and the log then carries, for every rule of the
`MISS` bucket, its name with the baseline (old) fingerprint and description
and the current (new) fingerprint and description. -/
theorem crossDirCheck_verdict (result last_result : BuildResultModel)
    (prev_revision : String)
    (hmaps : ∀ r ∈ getBucket result.cache_results "MISS",
      (result.rule_key_map r.rule_name).isSome ∧
      (last_result.rule_key_map r.rule_name).isSome) :
    ((∀ k ∈ keysOf result.cache_results, k = "DIR_HIT" ∨ k = "IGNORED") →
      crossDirCheck result last_result prev_revision = ([], Except.ok ())) ∧
    ((∃ k ∈ keysOf result.cache_results, k ≠ "DIR_HIT" ∧ k ≠ "IGNORED") →
      (crossDirCheck result last_result prev_revision).2 =
        Except.error "Failed to reuse cache across directories!!!" ∧
      ∀ r ∈ getBucket result.cache_results "MISS",
        ∀ key key_debug old_key old_key_debug,
          result.rule_key_map r.rule_name = some (key, key_debug) →
          last_result.rule_key_map r.rule_name = some (old_key, old_key_debug) →
          ("Rule " ++ r.rule_name ++ " missed.") ∈
            (crossDirCheck result last_result prev_revision).1 ∧
          ("	Old Rule Key (" ++ old_key ++ "): " ++ old_key_debug ++ ".") ∈
            (crossDirCheck result last_result prev_revision).1 ∧
          ("	New Rule Key (" ++ key ++ "): " ++ key_debug ++ ".") ∈
            (crossDirCheck result last_result prev_revision).1) := by
  obtain ⟨hnone, hmem⟩ :=
    logMissRules_logs_all result.rule_key_map last_result.rule_key_map
      (getBucket result.cache_results "MISS") hmaps
  constructor
  · intro hall
    have hempty : (keysOf result.cache_results).filter
        (fun x => !(x == "DIR_HIT" || x == "IGNORED")) = [] := by
      rw [List.filter_eq_nil_iff]
      intro k hk
      rcases hall k hk with rfl | rfl <;> simp
    simp only [crossDirCheck, hempty, List.isEmpty_nil]
    rfl
  · intro hex
    have hne : ((keysOf result.cache_results).filter
        (fun x => !(x == "DIR_HIT" || x == "IGNORED"))).isEmpty = false := by
      obtain ⟨k, hk, hkd, hki⟩ := hex
      have hmemf : k ∈ (keysOf result.cache_results).filter
          (fun x => !(x == "DIR_HIT" || x == "IGNORED")) :=
        List.mem_filter.mpr ⟨hk, by simp [hkd, hki]⟩
      rcases hval : ((keysOf result.cache_results).filter
          (fun x => !(x == "DIR_HIT" || x == "IGNORED"))) with - | ⟨a, t⟩
      · rw [hval] at hmemf
        exact absurd hmemf (List.not_mem_nil _)
      · rfl
    have hcdc : crossDirCheck result last_result prev_revision =
        (crossDirHeader prev_revision ::
          (logMissRules result.rule_key_map last_result.rule_key_map
            (getBucket result.cache_results "MISS")).1,
         Except.error "Failed to reuse cache across directories!!!") := by
      simp [crossDirCheck, hne, hnone]
      exact hex
    rw [hcdc]
    refine ⟨rfl, ?_⟩
    intro r hr key key_debug old_key old_key_debug hkey hold
    obtain ⟨h1, h2, h3⟩ := hmem r hr key key_debug old_key old_key_debug hkey hold
    exact ⟨List.mem_cons_of_mem _ h1, List.mem_cons_of_mem _ h2,
      List.mem_cons_of_mem _ h3⟩

/-- Witness for C2 at a concrete missed rule. -/
theorem crossDirCheck_verdict_witness :
    (crossDirCheck c2Result c2Last "r0").2 =
      Except.error "Failed to reuse cache across directories!!!" ∧
    ("Rule " ++ rrJl.rule_name ++ " missed.") ∈
      (crossDirCheck c2Result c2Last "r0").1 ∧
    ("	Old Rule Key (" ++ "bb22" ++ "): " ++ "debug0" ++ ".") ∈
      (crossDirCheck c2Result c2Last "r0").1 ∧
    ("	New Rule Key (" ++ "aa11" ++ "): " ++ "debug1" ++ ".") ∈
      (crossDirCheck c2Result c2Last "r0").1 := by
  have h := crossDirCheck_verdict c2Result c2Last "r0" (by decide)
  have h2 := h.2 ⟨"MISS", by decide, by decide, by decide⟩
  have h4 := h2.2 rrJl (by decide) "aa11" "debug1" "bb22" "debug0" (by decide) (by decide)
  exact ⟨h2.1, h4.1, h4.2.1, h4.2.2⟩

end PerfTestHg
